import Mathlib

/-!
# Verification of the ProjectVG vector-memory server's classification and retrieval core

This file embeds, as Lean definitions, the decision logic of the repository:

* `src/service/memory_classifier.py` — `determine_memory_type` (score formula with
  context and heuristic bonuses) and `classify_with_confidence` (score formula
  without those bonuses, plus the normalized confidence);
* `src/service/classification_service.py` — `_apply_business_rules` (the five
  ordered refinement rules) and `classify_memory` (the exposed pipeline);
* `src/repository/memory_repository.py` — `multi_collection_search` (weighted
  merge of per-collection hits) and the per-hit scoring of
  `search_memory_with_time_weight`;
* `src/service/advanced_memory_service.py` — `search_by_user` (catch-and-continue
  loop over the five fixed memory types);
* `src/utils/time.py` — `calculate_time_weight`;
* `src/service/memory_service.py` — `_make_search_result`.

Text analysis (Korean regex matching) is abstracted: the classifier is embedded
as a function of the extractor's outputs — the five feature match counts and the
boolean text flags the source computes by regex (`FeatureVector`, `TextFlags`) —
while every arithmetic step and branch downstream of the extraction is a direct
translation of the Python.  Python floats are modelled as `ℚ` where the source
does exact-literal arithmetic and comparisons, and as `ℝ` where `math.exp` is
involved.
-/

namespace VGMem

/-- The two memory categories, from `MemoryType` in `src/config/settings.py`. -/
inductive MemoryType where
  | episodic
  | semantic
deriving DecidableEq, Repr

/-- Output of the feature extraction in `MemoryClassifier`: for each of the five
pattern families, how many distinct patterns in that family matched the text
(`sum(1 for pattern in ... if re.search(pattern, content))`). -/
structure FeatureVector where
  temporal : ℕ
  emotional : ℕ
  conversational : ℕ
  factual : ℕ
  profile : ℕ
deriving DecidableEq, Repr

/-- The context/metadata keys that `determine_memory_type` and
`_apply_business_rules` read, reduced to their truthiness: whether the
corresponding key is present with a truthy value. -/
structure ClassifyContext where
  hasConversationId : Bool
  hasSpeaker : Bool
  hasEmotion : Bool
  hasFactType : Bool
deriving DecidableEq, Repr

/-- The text-shape facts read by `determine_memory_type` (regex heuristics) and
by the short-text business rule: whether the interrogative regex fires, whether
the declarative-ending regex fires, whether `len(content) < 10`, and
`len(text.split())`. -/
structure TextFlags where
  isQuestion : Bool
  isDeclarativeEnd : Bool
  lenLt10 : Bool
  wordCount : ℕ
deriving DecidableEq, Repr

/-- The all-zero feature vector (e.g. the empty text matches no pattern). -/
def zeroFeatures : FeatureVector := ⟨0, 0, 0, 0, 0⟩

/-- The empty context dictionary. -/
def emptyCtx : ClassifyContext := ⟨false, false, false, false⟩

/-- Episodic raw score of `determine_memory_type`
(`src/service/memory_classifier.py` lines 59–112): feature contributions,
context bonuses (+2 for conversation_id/speaker, +3 for emotion), the
interrogative bonus (+2) and the short-text bonus (+1).  The Python guards each
feature term with `if matches > 0`, and the context bonuses with `if context:`;
with an all-false context the bonuses are zero either way. -/
def episodicScoreDet (fv : FeatureVector) (ctx : ClassifyContext) (tf : TextFlags) : ℕ :=
  (if fv.temporal > 0 then fv.temporal * 2 else 0)
    + (if fv.emotional > 0 then fv.emotional * 3 else 0)
    + (if fv.conversational > 0 then fv.conversational * 2 else 0)
    + (if ctx.hasConversationId || ctx.hasSpeaker then 2 else 0)
    + (if ctx.hasEmotion then 3 else 0)
    + (if tf.isQuestion then 2 else 0)
    + (if tf.lenLt10 then 1 else 0)

/-- Semantic raw score of `determine_memory_type`: feature contributions, the
explicit fact-type bonus (+5) and the declarative-ending bonus (+1). -/
def semanticScoreDet (fv : FeatureVector) (ctx : ClassifyContext) (tf : TextFlags) : ℕ :=
  (if fv.factual > 0 then fv.factual * 2 else 0)
    + (if fv.profile > 0 then fv.profile * 3 else 0)
    + (if ctx.hasFactType then 5 else 0)
    + (if tf.isDeclarativeEnd then 1 else 0)

/-- Embeds `MemoryClassifier.determine_memory_type` final decision (lines 114–121):
strict comparison both ways, ties fall through to `SEMANTIC`. -/
def determine_memory_type (fv : FeatureVector) (ctx : ClassifyContext) (tf : TextFlags) :
    MemoryType :=
  let e := episodicScoreDet fv ctx tf
  let s := semanticScoreDet fv ctx tf
  if e > s then MemoryType.episodic
  else if s > e then MemoryType.semantic
  else MemoryType.semantic

/-- Episodic raw score of `classify_with_confidence` (lines 144–154): only the
three episodic feature families, no context or heuristic bonuses. -/
def cwcEpisodicScore (fv : FeatureVector) : ℕ :=
  fv.temporal * 2 + fv.emotional * 3 + fv.conversational * 2

/-- Semantic raw score of `classify_with_confidence` (lines 156–162): only the
two semantic feature families. -/
def cwcSemanticScore (fv : FeatureVector) : ℕ :=
  fv.factual * 2 + fv.profile * 3

/-- Result record of `classify_with_confidence`. -/
structure RawClassification where
  predictedType : MemoryType
  confidence : ℚ
  episodicScore : ℕ
  semanticScore : ℕ
  features : FeatureVector
deriving DecidableEq, Repr

/-- Embeds `MemoryClassifier.classify_with_confidence` (lines 131–180).  The `context`
argument is accepted (as in the Python signature) but never read.  The winner is
`max(scores, key=scores.get)` over the dict inserted in the order
`{EPISODIC: _, SEMANTIC: _}`: Python's `max` keeps the first key attaining the
maximum, so `SEMANTIC` wins only when its score is strictly greater.
Confidence is `scores[predicted] / max(total_score, 1)`. -/
def classify_with_confidence (fv : FeatureVector) (_ctx : ClassifyContext) :
    RawClassification :=
  let e := cwcEpisodicScore fv
  let s := cwcSemanticScore fv
  let predicted := if s > e then MemoryType.semantic else MemoryType.episodic
  let winning := if s > e then s else e
  { predictedType := predicted
    confidence := (winning : ℚ) / (max (e + s) 1 : ℕ)
    episodicScore := e
    semanticScore := s
    features := fv }

/-- The mutable classification state threaded through
`MemoryClassificationService._apply_business_rules`: predicted type, confidence
and the list of fired rule identifiers. -/
structure Refined where
  type : MemoryType
  confidence : ℚ
  rulesApplied : List String
deriving DecidableEq, Repr

/-- Rule 1 (`classification_service.py` lines 42–46): text of at most 3 words
with confidence below 0.7 is forced Episodic at `max(confidence, 0.7)`. -/
def ruleShortText (wordCount : ℕ) (st : Refined) : Refined :=
  if wordCount ≤ 3 ∧ st.confidence < 7/10 then
    { type := MemoryType.episodic
      confidence := max st.confidence (7/10)
      rulesApplied := st.rulesApplied ++ ["short_text_rule"] }
  else st

/-- Rule 2 (lines 48–52): an explicit fact-type key forces Semantic at 0.95. -/
def ruleExplicitFactType (ctx : ClassifyContext) (st : Refined) : Refined :=
  if ctx.hasFactType then
    { type := MemoryType.semantic
      confidence := 19/20
      rulesApplied := st.rulesApplied ++ ["explicit_fact_type"] }
  else st

/-- Rule 3 (lines 54–63): a conversation-id or speaker key boosts an Episodic
prediction by 0.2 (capped at 1), and flips a Semantic prediction below 0.8 to
Episodic at 0.75; the rule identifier is recorded whenever the key is present. -/
def ruleConversationContext (ctx : ClassifyContext) (st : Refined) : Refined :=
  if ctx.hasConversationId || ctx.hasSpeaker then
    if st.type = MemoryType.episodic then
      { st with
        confidence := min (st.confidence + 1/5) 1
        rulesApplied := st.rulesApplied ++ ["conversation_context"] }
    else if st.confidence < 4/5 then
      { type := MemoryType.episodic
        confidence := 3/4
        rulesApplied := st.rulesApplied ++ ["conversation_context"] }
    else
      { st with rulesApplied := st.rulesApplied ++ ["conversation_context"] }
  else st

/-- Rule 4 (lines 65–71): an emotional feature count of at least 2 on a Semantic
prediction below 0.8 flips it to Episodic at 0.8; the identifier is recorded
whenever the outer condition holds. -/
def ruleHighEmotion (emotionalMatches : ℕ) (st : Refined) : Refined :=
  if 2 ≤ emotionalMatches ∧ st.type = MemoryType.semantic then
    if st.confidence < 4/5 then
      { type := MemoryType.episodic
        confidence := 4/5
        rulesApplied := st.rulesApplied ++ ["high_emotion_rule"] }
    else
      { st with rulesApplied := st.rulesApplied ++ ["high_emotion_rule"] }
  else st

/-- Rule 5 (lines 73–78): a profile feature count of at least 2 forces Semantic
and adds 0.3 confidence (capped at 1). -/
def ruleProfileInformation (profileMatches : ℕ) (st : Refined) : Refined :=
  if 2 ≤ profileMatches then
    { type := MemoryType.semantic
      confidence := min (st.confidence + 3/10) 1
      rulesApplied := st.rulesApplied ++ ["profile_information"] }
  else st

/-- Embeds `MemoryClassificationService._apply_business_rules` (lines 35–85): the five
rules applied in source order to the raw classification. -/
def apply_business_rules (tf : TextFlags) (ctx : ClassifyContext)
    (cls : RawClassification) : Refined :=
  ruleProfileInformation cls.features.profile
    (ruleHighEmotion cls.features.emotional
      (ruleConversationContext ctx
        (ruleExplicitFactType ctx
          (ruleShortText tf.wordCount
            { type := cls.predictedType
              confidence := cls.confidence
              rulesApplied := [] }))))

/-- Embeds `MemoryClassificationService.classify_memory` (lines 17–33), the pipeline
behind the exposed `/api/classify` route (`facade.classify_memory`): raw
classification followed by the business rules. -/
def classify_memory (fv : FeatureVector) (ctx : ClassifyContext) (tf : TextFlags) :
    Refined :=
  apply_business_rules tf ctx (classify_with_confidence fv ctx)

/-- Embeds `calculate_time_weight` from `src/utils/time.py` (lines 34–40).  Times are
modelled as real numbers measured in days, so
`abs((reference_time - insert_time).total_seconds() / 86400)` is
`|referenceTime - insertTime|`.  If the weight is exactly 0 the function
returns 1.0; otherwise `exp(-time_diff * time_weight)`. -/
noncomputable def calculate_time_weight (insertTime referenceTime timeWeight : ℝ) : ℝ :=
  if timeWeight = 0 then 1
  else Real.exp (-|referenceTime - insertTime| * timeWeight)

/-- The scoring fields of a `SearchResult` built by
`MemoryService._make_search_result`. -/
structure ScoredResult where
  similarityScore : ℝ
  timeWeight : ℝ
  finalScore : ℝ

/-- Embeds `MemoryService._make_search_result` (`src/service/memory_service.py` lines
79–96), scoring part: the payload's timestamp (already parsed to a day number)
when the `"timestamp"` key is present, otherwise `none`; a missing key yields
the fixed time weight 0.5, a present key yields `calculate_time_weight`.
The final score is `similarity_score * t_weight`. -/
noncomputable def make_search_result (similarityScore : ℝ) (timestamp : Option ℝ)
    (referenceTime timeWeight : ℝ) : ScoredResult :=
  match timestamp with
  | some insertTime =>
      let w := calculate_time_weight insertTime referenceTime timeWeight
      { similarityScore := similarityScore, timeWeight := w
        finalScore := similarityScore * w }
  | none =>
      { similarityScore := similarityScore, timeWeight := 1/2
        finalScore := similarityScore * (1/2) }

/-- A hit as returned by `MemoryQdrantRepository.search_memory`: the raw
similarity score and an identifier standing for the point id/payload. -/
structure Hit where
  score : ℚ
  pid : ℕ
deriving DecidableEq, Repr

/-- A hit after `multi_collection_search` mutated it: weighted score, id, and
the originating `collection_type`. -/
structure RankedHit where
  score : ℚ
  pid : ℕ
  collectionType : MemoryType
deriving DecidableEq, Repr

/-- Embeds `weights.get(memory_type, 1.0) if weights else 1.0`
(`src/repository/memory_repository.py` line 104). -/
def getWeight (weights : Option (MemoryType → Option ℚ)) (c : MemoryType) : ℚ :=
  match weights with
  | none => 1
  | some w => (w c).getD 1

/-- The per-collection loop body of `multi_collection_search` (lines 100–108):
each hit's score is multiplied by the collection's weight and the hit is tagged
with its collection. -/
def weighHits (weights : Option (MemoryType → Option ℚ)) (c : MemoryType)
    (hits : List Hit) : List RankedHit :=
  hits.map (fun h => ⟨h.score * getWeight weights c, h.pid, c⟩)

/-- Stable descending insertion by a rational key: the new element (earlier in
the input) is placed before the first element whose key is not greater, which
is exactly the ordering produced by Python's stable
`list.sort(key=..., reverse=True)`. -/
def insertDescBy (key : α → ℚ) (x : α) : List α → List α
  | [] => [x]
  | y :: ys => if key y ≤ key x then x :: y :: ys else y :: insertDescBy key x ys

/-- Stable descending sort by a rational key, modelling
`list.sort(key=..., reverse=True)`. -/
def sortDescBy (key : α → ℚ) : List α → List α
  | [] => []
  | x :: xs => insertDescBy key x (sortDescBy key xs)

/-- Embeds `MemoryQdrantRepository.multi_collection_search` (lines 96–112) with the
per-collection storage query abstracted as `searchMemory` (each call is made
with the same `limit`, which the model leaves to `searchMemory`): weigh and tag
every collection's hits, concatenate in collection order, sort descending by
score, truncate to `limit`. -/
def multi_collection_search (searchMemory : MemoryType → List Hit)
    (collections : List MemoryType) (limit : ℕ)
    (weights : Option (MemoryType → Option ℚ)) : List RankedHit :=
  let allResults := collections.flatMap (fun c => weighHits weights c (searchMemory c))
  (sortDescBy RankedHit.score allResults).take limit

/-- The same loop with a fallible storage query: the Python body has no
`try/except`, so an exception raised by `self.search_memory` for any collection
propagates out of `multi_collection_search` and all hits already gathered are
lost.  `gatherWeighted` is the loop, `multi_collection_search_fallible` the
whole method. -/
def gatherWeighted (searchMemory : MemoryType → Except String (List Hit))
    (weights : Option (MemoryType → Option ℚ)) :
    List MemoryType → Except String (List RankedHit)
  | [] => Except.ok []
  | c :: cs => do
      let hits ← searchMemory c
      let rest ← gatherWeighted searchMemory weights cs
      Except.ok (weighHits weights c hits ++ rest)

/-- Embeds `multi_collection_search` over a fallible storage query: see
`gatherWeighted`. -/
def multi_collection_search_fallible (searchMemory : MemoryType → Except String (List Hit))
    (collections : List MemoryType) (limit : ℕ)
    (weights : Option (MemoryType → Option ℚ)) : Except String (List RankedHit) := do
  let allResults ← gatherWeighted searchMemory weights collections
  Except.ok ((sortDescBy RankedHit.score allResults).take limit)

/-- A `SearchResult` as sorted by `AdvancedMemoryService.search_by_user`: only
its `final_score` matters to the merge, plus an identifier. -/
structure UserResult where
  finalScore : ℚ
  rid : ℕ
deriving DecidableEq, Repr

/-- The five fixed keys of `AdvancedMemoryService.memory_types`
(`src/service/advanced_memory_service.py` lines 14–20). -/
def memoryTypeKeys : List String :=
  ["episodic", "semantic", "procedural", "emotional", "contextual"]

/-- The all-types loop of `search_by_user` (lines 43–50): each per-type search
is wrapped in `try: ... except: continue`, so a failing type contributes
nothing and is not recorded anywhere. -/
def collectHealthy (search : String → Except String (List UserResult)) :
    List String → List UserResult
  | [] => []
  | t :: ts =>
      (match search t with
        | Except.ok rs => rs
        | Except.error _ => []) ++ collectHealthy search ts

/-- Embeds `AdvancedMemoryService.search_by_user` (lines 37–56) in the
all-memory-types branch (`memory_type is None`): gather the healthy types'
results, sort by `final_score` descending, truncate to `top_k`.  The return
value is a bare result list — nothing in it identifies failed collections. -/
def search_by_user (search : String → Except String (List UserResult)) (topK : ℕ) :
    List UserResult :=
  (sortDescBy UserResult.finalScore (collectHealthy search memoryTypeKeys)).take topK

/-- Per-hit scoring of `MemoryQdrantRepository.search_memory_with_time_weight`
(lines 256–277).  `timestamp` models the payload's `"timestamp"` key:
`none` = key absent, `some none` = present but unparseable (the caught
`ValueError`/`TypeError` branch), `some (some memoryTime)` = parsed to a real
day number.  `days_ago = (current_time - memory_time).days` is the floor of the
real day difference (Python's `timedelta.days` floors toward minus infinity),
with no absolute value; the decay is `exp(-days_ago / decay_days)` and the
adjusted score blends it with the raw score by `time_weight`. -/
noncomputable def time_weighted_adjusted_score (score : ℝ) (timestamp : Option (Option ℝ))
    (currentTime timeWeight decayDays : ℝ) : ℝ :=
  match timestamp with
  | some (some memoryTime) =>
      let daysAgo : ℤ := ⌊currentTime - memoryTime⌋
      let timeDecay := Real.exp (-(daysAgo : ℝ) / decayDays)
      score * (1 - timeWeight) + timeDecay * timeWeight
  | some none => score
  | none => score

/-- The raw episodic score exactly as the spec words it (§4.2): `2·temporal +
3·emotional + 2·conversational` plus +2 for a conversation hint, +3 for an
emotion hint, +2 for interrogative text, +1 for text shorter than 10
characters.  Written from the spec, to be compared with the source-derived
scores. -/
def specRawEpisodic (fv : FeatureVector) (ctx : ClassifyContext) (tf : TextFlags) : ℕ :=
  2 * fv.temporal + 3 * fv.emotional + 2 * fv.conversational
    + (if ctx.hasConversationId || ctx.hasSpeaker then 2 else 0)
    + (if ctx.hasEmotion then 3 else 0)
    + (if tf.isQuestion then 2 else 0)
    + (if tf.lenLt10 then 1 else 0)

/-- The raw semantic score exactly as the spec words it (§4.2): `2·factual +
3·profile` plus +5 for an explicit fact-type hint and +1 for a declarative
copula ending.  Written from the spec, to be compared with the source-derived
scores. -/
def specRawSemantic (fv : FeatureVector) (ctx : ClassifyContext) (tf : TextFlags) : ℕ :=
  2 * fv.factual + 3 * fv.profile
    + (if ctx.hasFactType then 5 else 0)
    + (if tf.isDeclarativeEnd then 1 else 0)

/-! ### Lemmas about the stable descending sort -/

theorem length_insertDescBy (key : α → ℚ) (x : α) (l : List α) :
    (insertDescBy key x l).length = l.length + 1 := by
  induction l with
  | nil => rfl
  | cons y ys ih =>
      simp only [insertDescBy]
      split <;> simp [ih]

theorem length_sortDescBy (key : α → ℚ) (l : List α) :
    (sortDescBy key l).length = l.length := by
  induction l with
  | nil => rfl
  | cons x xs ih => simp [sortDescBy, length_insertDescBy, ih]

theorem mem_insertDescBy (key : α → ℚ) (x a : α) (l : List α) :
    a ∈ insertDescBy key x l ↔ a = x ∨ a ∈ l := by
  induction l with
  | nil => simp [insertDescBy]
  | cons y ys ih =>
      simp only [insertDescBy]
      split
      · simp
      · simp only [List.mem_cons, ih]
        tauto

theorem mem_sortDescBy (key : α → ℚ) (a : α) (l : List α) :
    a ∈ sortDescBy key l ↔ a ∈ l := by
  induction l with
  | nil => simp [sortDescBy]
  | cons x xs ih =>
      simp only [sortDescBy, mem_insertDescBy, List.mem_cons, ih]

theorem sorted_insertDescBy (key : α → ℚ) (x : α) (l : List α)
    (h : List.Sorted (fun a b => key b ≤ key a) l) :
    List.Sorted (fun a b => key b ≤ key a) (insertDescBy key x l) := by
  induction l with
  | nil => simp [insertDescBy]
  | cons y ys ih =>
      simp only [insertDescBy]
      split
      · rename_i hyx
        refine List.sorted_cons.mpr ⟨?_, h⟩
        intro b hb
        rcases List.mem_cons.mp hb with rfl | hb
        · exact hyx
        · exact le_trans ((List.sorted_cons.mp h).1 b hb) hyx
      · rename_i hyx
        have hys := (List.sorted_cons.mp h).2
        refine List.sorted_cons.mpr ⟨?_, ih hys⟩
        intro b hb
        rcases (mem_insertDescBy key x b ys).mp hb with rfl | hb
        · exact le_of_not_le hyx
        · exact (List.sorted_cons.mp h).1 b hb

theorem sorted_sortDescBy (key : α → ℚ) (l : List α) :
    List.Sorted (fun a b => key b ≤ key a) (sortDescBy key l) := by
  induction l with
  | nil => simp [sortDescBy]
  | cons x xs ih => exact sorted_insertDescBy key x _ ih

/-- Stability of the insertion step: on a sorted list, inserting `x` does not
disturb the relative order of elements sharing any key value — the elements of
key `s` in the output are those of the input, with `x` prepended when
`key x = s` (the inserted element came earlier in the original list). -/
theorem filter_insertDescBy (key : α → ℚ) [DecidableEq α] (x : α) (l : List α) (s : ℚ)
    (h : List.Sorted (fun a b => key b ≤ key a) l) :
    (insertDescBy key x l).filter (fun a => key a = s)
      = (if key x = s then [x] else []) ++ l.filter (fun a => key a = s) := by
  induction l with
  | nil => cases hxs : decide (key x = s) <;>
      simp_all [insertDescBy, List.filter]
  | cons y ys ih =>
      simp only [insertDescBy]
      split
      · rename_i hyx
        simp only [List.filter]
        cases hxs : decide (key x = s) <;> simp_all
      · rename_i hyx
        have hys := (List.sorted_cons.mp h).2
        simp only [List.filter]
        cases hys' : decide (key y = s)
        · have := ih hys
          simp_all
        · -- `key y = s` but `x` is inserted strictly below `y`: then
          -- `key x < key y = s`, so `x` does not have key `s`.
          have hkyx : ¬ key y ≤ key x := hyx
          have hkxs : key x ≠ s := by
            intro hxs
            have : key y = s := of_decide_eq_true hys'
            exact hkyx (le_of_eq (this.trans hxs.symm))
          have := ih hys
          simp_all


theorem filter_sortDescBy (key : α → ℚ) [DecidableEq α] (l : List α) (s : ℚ) :
    (sortDescBy key l).filter (fun a => key a = s) = l.filter (fun a => key a = s) := by
  induction l with
  | nil => rfl
  | cons x xs ih =>
      rw [sortDescBy, filter_insertDescBy key x _ s (sorted_sortDescBy key xs)]
      simp only [List.filter]
      cases hxs : decide (key x = s) <;> simp_all

/-! ### Helper lemmas about the classifier -/

theorem memoryType_cases (m : MemoryType) :
    m = MemoryType.episodic ∨ m = MemoryType.semantic := by
  cases m
  · exact Or.inl rfl
  · exact Or.inr rfl

theorem guarded_mul_eq (n k : ℕ) : (if n > 0 then n * k else 0) = k * n := by
  rcases Nat.eq_zero_or_pos n with h | h <;> simp [h, Nat.mul_comm]

theorem cwc_confidence_nonneg (fv : FeatureVector) (ctx : ClassifyContext) :
    0 ≤ (classify_with_confidence fv ctx).confidence := by
  unfold classify_with_confidence
  exact div_nonneg (by positivity) (by positivity)

theorem cwc_confidence_le_one (fv : FeatureVector) (ctx : ClassifyContext) :
    (classify_with_confidence fv ctx).confidence ≤ 1 := by
  unfold classify_with_confidence
  simp only
  rw [div_le_one (by positivity)]
  have hle : (if cwcSemanticScore fv > cwcEpisodicScore fv then cwcSemanticScore fv
      else cwcEpisodicScore fv) ≤ max (cwcEpisodicScore fv + cwcSemanticScore fv) 1 := by
    have : (if cwcSemanticScore fv > cwcEpisodicScore fv then cwcSemanticScore fv
        else cwcEpisodicScore fv) ≤ cwcEpisodicScore fv + cwcSemanticScore fv := by
      split <;> omega
    omega
  exact_mod_cast hle

/-- Claim C1, counterexample: the raw classifier that feeds the exposed
classify operation resolves the all-zero tie to **Episodic** (Python's `max`
keeps the first key of the `{EPISODIC, SEMANTIC}` dict), not Semantic as the
spec states. -/
theorem c1_tie_default_counterexample :
    (classify_with_confidence zeroFeatures emptyCtx).predictedType = MemoryType.episodic ∧
    (classify_with_confidence zeroFeatures emptyCtx).confidence = 0 ∧
    MemoryType.episodic ≠ MemoryType.semantic := by
  refine ⟨rfl, ?_, by decide⟩
  norm_num [classify_with_confidence, cwcEpisodicScore, cwcSemanticScore, zeroFeatures]

/-- Claim C1 (amended): on equal raw scores, `classify_with_confidence` — the
classifier behind the exposed classify pipeline — predicts Episodic (with
confidence 0 in the all-zero case, and the full pipeline also returns Episodic
there when no business rule fires); it is `determine_memory_type`, used for
insert routing, that resolves ties to Semantic. -/
theorem c1_amended_tie_behavior (fv : FeatureVector) (ctx : ClassifyContext) (tf : TextFlags) :
    (cwcEpisodicScore fv = cwcSemanticScore fv →
      (classify_with_confidence fv ctx).predictedType = MemoryType.episodic) ∧
    (episodicScoreDet fv ctx tf = semanticScoreDet fv ctx tf →
      determine_memory_type fv ctx tf = MemoryType.semantic) ∧
    (classify_with_confidence zeroFeatures ctx).confidence = 0 ∧
    (3 < tf.wordCount →
      (classify_memory zeroFeatures emptyCtx tf).type = MemoryType.episodic ∧
      (classify_memory zeroFeatures emptyCtx tf).confidence = 0) := by
  refine ⟨?_, ?_, ?_, ?_⟩
  · intro h
    unfold classify_with_confidence
    simp [h, lt_irrefl]
  · intro h
    unfold determine_memory_type
    simp [h, lt_irrefl]
  · unfold classify_with_confidence
    norm_num [cwcEpisodicScore, cwcSemanticScore, zeroFeatures]
  · intro h
    have hnot : ¬ tf.wordCount ≤ 3 := by omega
    unfold classify_memory apply_business_rules ruleShortText ruleExplicitFactType
      ruleConversationContext ruleHighEmotion ruleProfileInformation
    norm_num [hnot, classify_with_confidence, cwcEpisodicScore, cwcSemanticScore,
      zeroFeatures, emptyCtx]

/-- Witness for `c1_amended_tie_behavior` at the all-zero feature vector, empty
context and a 4-word text. -/
theorem c1_amended_tie_behavior_witness :
    (classify_with_confidence zeroFeatures emptyCtx).predictedType = MemoryType.episodic ∧
    determine_memory_type zeroFeatures emptyCtx ⟨false, false, false, 4⟩ = MemoryType.semantic ∧
    (classify_memory zeroFeatures emptyCtx ⟨false, false, false, 4⟩).type
      = MemoryType.episodic := by
  obtain ⟨h1, h2, _h3, h4⟩ :=
    c1_amended_tie_behavior zeroFeatures emptyCtx ⟨false, false, false, 4⟩
  exact ⟨h1 (by decide), h2 (by decide), (h4 (by decide)).1⟩

/-- Claim C3, counterexample: with an explicit fact-type hint and no feature
matches, the spec's raw-semantic formula gives 5, but the raw semantic score of
`classify_with_confidence` — the classifier behind the exposed classify — is 0:
the context and heuristic bonuses are absent from it. -/
theorem c3_raw_score_counterexample :
    (classify_with_confidence zeroFeatures ⟨false, false, false, true⟩).semanticScore = 0 ∧
    specRawSemantic zeroFeatures ⟨false, false, false, true⟩ ⟨false, false, false, 0⟩ = 5 ∧
    (classify_with_confidence zeroFeatures ⟨false, false, false, true⟩).semanticScore ≠
      specRawSemantic zeroFeatures ⟨false, false, false, true⟩ ⟨false, false, false, 0⟩ := by
  decide

/-- Claim C3 (amended): the spec's full raw-score formulas (feature terms plus
context and heuristic bonuses) describe `determine_memory_type`'s scores, while
the raw scores underlying the exposed classify operation
(`classify_with_confidence`) are only `2·temporal + 3·emotional +
2·conversational` and `2·factual + 3·profile`, with no context or heuristic
bonuses. -/
theorem c3_amended_raw_score_formulas (fv : FeatureVector) (ctx : ClassifyContext)
    (tf : TextFlags) :
    episodicScoreDet fv ctx tf = specRawEpisodic fv ctx tf ∧
    semanticScoreDet fv ctx tf = specRawSemantic fv ctx tf ∧
    (classify_with_confidence fv ctx).episodicScore
      = 2 * fv.temporal + 3 * fv.emotional + 2 * fv.conversational ∧
    (classify_with_confidence fv ctx).semanticScore = 2 * fv.factual + 3 * fv.profile := by
  refine ⟨?_, ?_, ?_, ?_⟩
  · simp only [episodicScoreDet, specRawEpisodic, guarded_mul_eq]
  · simp only [semanticScoreDet, specRawSemantic, guarded_mul_eq]
  · show cwcEpisodicScore fv = _
    unfold cwcEpisodicScore
    ring
  · show cwcSemanticScore fv = _
    unfold cwcSemanticScore
    ring

/-! ### Behaviour of the business rules on refined states -/

theorem ruleConversationContext_keeps_high_semantic (ctx : ClassifyContext) (st : Refined)
    (hty : st.type = MemoryType.semantic) (hc : 4/5 ≤ st.confidence) :
    (ruleConversationContext ctx st).type = MemoryType.semantic ∧
    (ruleConversationContext ctx st).confidence = st.confidence := by
  unfold ruleConversationContext
  split_ifs with h1 h2 h3 <;> simp_all
  exact absurd h3 (not_lt.mpr hc)

theorem ruleHighEmotion_keeps_high (em : ℕ) (st : Refined)
    (hc : 4/5 ≤ st.confidence) :
    (ruleHighEmotion em st).type = st.type ∧
    (ruleHighEmotion em st).confidence = st.confidence := by
  unfold ruleHighEmotion
  split_ifs with h1 h2
  · exact absurd h2 (not_lt.mpr hc)
  · simp
  · simp

theorem ruleHighEmotion_skips_episodic (em : ℕ) (st : Refined)
    (hty : st.type = MemoryType.episodic) : ruleHighEmotion em st = st := by
  unfold ruleHighEmotion
  split_ifs with h1 h2
  · rw [hty] at h1
    exact absurd h1.2 (by decide)
  · rw [hty] at h1
    exact absurd h1.2 (by decide)
  · rfl

theorem ruleProfileInformation_fires (p : ℕ) (st : Refined) (hp : 2 ≤ p) :
    (ruleProfileInformation p st).type = MemoryType.semantic ∧
    (ruleProfileInformation p st).confidence = min (st.confidence + 3/10) 1 := by
  unfold ruleProfileInformation
  rw [if_pos hp]
  exact ⟨rfl, rfl⟩

theorem ruleExplicitFactType_conf_ge (ctx : ClassifyContext) (st : Refined)
    (h : 7/10 ≤ st.confidence) : 7/10 ≤ (ruleExplicitFactType ctx st).confidence := by
  unfold ruleExplicitFactType
  split_ifs <;> [norm_num; exact h]

theorem ruleConversationContext_conf_ge (ctx : ClassifyContext) (st : Refined)
    (h : 7/10 ≤ st.confidence) : 7/10 ≤ (ruleConversationContext ctx st).confidence := by
  unfold ruleConversationContext
  split_ifs with h1 h2 h3
  · have : (7/10 : ℚ) ≤ min (st.confidence + 1/5) 1 := by
      refine le_min (by linarith) (by norm_num)
    simpa using this
  · norm_num
  · simpa using h
  · exact h

theorem ruleHighEmotion_conf_ge (em : ℕ) (st : Refined)
    (h : 7/10 ≤ st.confidence) : 7/10 ≤ (ruleHighEmotion em st).confidence := by
  unfold ruleHighEmotion
  split_ifs
  · norm_num
  · exact h
  · exact h

/-- Claim C4, counterexample: text with at least two profile feature matches and
an explicit fact-type hint is refined to confidence 1, not 0.95 — rule 5 runs
after rule 2 and adds 0.3 (capped at 1). -/
theorem c4_fact_type_confidence_counterexample :
    (classify_memory ⟨0, 0, 0, 0, 2⟩ ⟨false, false, false, true⟩
        ⟨false, false, false, 2⟩).type = MemoryType.semantic ∧
    (classify_memory ⟨0, 0, 0, 0, 2⟩ ⟨false, false, false, true⟩
        ⟨false, false, false, 2⟩).confidence = 1 ∧
    (1 : ℚ) ≠ 19/20 := by
  refine ⟨?_, ?_, by norm_num⟩ <;>
    norm_num [classify_memory, apply_business_rules, classify_with_confidence,
      cwcEpisodicScore, cwcSemanticScore, ruleShortText, ruleExplicitFactType,
      ruleConversationContext, ruleHighEmotion, ruleProfileInformation]

/-- Claim C4 (amended): with an explicit fact-type hint the refined
classification is always Semantic, with confidence exactly 0.95 when the text
has fewer than two profile feature matches, and exactly 1.0 (0.95 + 0.3 capped)
when the profile-information rule also fires. -/
theorem c4_amended_fact_type_rule (fv : FeatureVector) (a b c : Bool) (tf : TextFlags) :
    (classify_memory fv ⟨a, b, c, true⟩ tf).type = MemoryType.semantic ∧
    (classify_memory fv ⟨a, b, c, true⟩ tf).confidence
      = if 2 ≤ fv.profile then 1 else 19/20 := by
  unfold classify_memory apply_business_rules
  set st1 := ruleShortText tf.wordCount
    { type := (classify_with_confidence fv ⟨a, b, c, true⟩).predictedType
      confidence := (classify_with_confidence fv ⟨a, b, c, true⟩).confidence
      rulesApplied := [] } with hst1
  have h2 : ruleExplicitFactType ⟨a, b, c, true⟩ st1
      = { type := MemoryType.semantic, confidence := 19/20,
          rulesApplied := st1.rulesApplied ++ ["explicit_fact_type"] } := by
    unfold ruleExplicitFactType
    rfl
  rw [h2]
  set st2 : Refined :=
    { type := MemoryType.semantic, confidence := 19/20,
      rulesApplied := st1.rulesApplied ++ ["explicit_fact_type"] } with hst2
  obtain ⟨h3t, h3c⟩ := ruleConversationContext_keeps_high_semantic ⟨a, b, c, true⟩ st2
    rfl (by norm_num [hst2])
  obtain ⟨h4t, h4c⟩ := ruleHighEmotion_keeps_high
    (classify_with_confidence fv ⟨a, b, c, true⟩).features.emotional
    (ruleConversationContext ⟨a, b, c, true⟩ st2) (by rw [h3c]; norm_num [hst2])
  by_cases hp : 2 ≤ fv.profile
  · have hp' : 2 ≤ (classify_with_confidence fv ⟨a, b, c, true⟩).features.profile := hp
    obtain ⟨h5t, h5c⟩ := ruleProfileInformation_fires _ _ hp'
    refine ⟨h5t, ?_⟩
    rw [h5c, h4c, h3c, if_pos hp]
    norm_num [hst2]
  · have hp' : ¬ 2 ≤ (classify_with_confidence fv ⟨a, b, c, true⟩).features.profile := hp
    have h5 : ruleProfileInformation
        (classify_with_confidence fv ⟨a, b, c, true⟩).features.profile
        (ruleHighEmotion (classify_with_confidence fv ⟨a, b, c, true⟩).features.emotional
          (ruleConversationContext ⟨a, b, c, true⟩ st2))
        = ruleHighEmotion (classify_with_confidence fv ⟨a, b, c, true⟩).features.emotional
            (ruleConversationContext ⟨a, b, c, true⟩ st2) := by
      unfold ruleProfileInformation
      rw [if_neg hp']
    rw [h5, if_neg hp]
    refine ⟨by rw [h4t, h3t], by rw [h4c, h3c]⟩

/-- Claim C5 (confirmed): when the short-text rule's preconditions (at most 3
words, raw confidence below 0.7) and the profile-information rule's
precondition (at least 2 profile matches) all hold, the refined classification
is Semantic with confidence at least 0.8 — rule 5 runs last and overrides
rule 1. -/
theorem c5_profile_rule_overrides_short_text (fv : FeatureVector) (ctx : ClassifyContext)
    (tf : TextFlags)
    (hw : tf.wordCount ≤ 3)
    (hc : (classify_with_confidence fv ctx).confidence < 7/10)
    (hp : 2 ≤ fv.profile) :
    (classify_memory fv ctx tf).type = MemoryType.semantic ∧
    4/5 ≤ (classify_memory fv ctx tf).confidence := by
  unfold classify_memory apply_business_rules
  set st0 : Refined :=
    { type := (classify_with_confidence fv ctx).predictedType,
      confidence := (classify_with_confidence fv ctx).confidence,
      rulesApplied := [] } with hst0
  have h1 : ruleShortText tf.wordCount st0
      = { type := MemoryType.episodic,
          confidence := max st0.confidence (7/10),
          rulesApplied := st0.rulesApplied ++ ["short_text_rule"] } := by
    unfold ruleShortText
    rw [if_pos ⟨hw, hc⟩]
  rw [h1]
  have g1 : (7/10 : ℚ) ≤ max st0.confidence (7/10) := le_max_right _ _
  have g2 := ruleExplicitFactType_conf_ge ctx
    { type := MemoryType.episodic,
      confidence := max st0.confidence (7/10),
      rulesApplied := st0.rulesApplied ++ ["short_text_rule"] } g1
  have g3 := ruleConversationContext_conf_ge ctx _ g2
  have g4 := ruleHighEmotion_conf_ge
    (classify_with_confidence fv ctx).features.emotional _ g3
  obtain ⟨h5t, h5c⟩ := ruleProfileInformation_fires
    (classify_with_confidence fv ctx).features.profile _ hp
  refine ⟨h5t, ?_⟩
  rw [h5c]
  exact le_min (by linarith) (by norm_num)

/-- Witness for `c5_profile_rule_overrides_short_text`: 3-word text with 2
temporal, 1 emotional and 2 profile matches (raw confidence 7/13 < 0.7). -/
theorem c5_profile_rule_witness :
    (classify_memory ⟨2, 1, 0, 0, 2⟩ emptyCtx ⟨false, false, false, 3⟩).type
      = MemoryType.semantic ∧
    4/5 ≤ (classify_memory ⟨2, 1, 0, 0, 2⟩ emptyCtx ⟨false, false, false, 3⟩).confidence :=
  c5_profile_rule_overrides_short_text ⟨2, 1, 0, 0, 2⟩ emptyCtx ⟨false, false, false, 3⟩
    (by decide)
    (by norm_num [classify_with_confidence, cwcEpisodicScore, cwcSemanticScore])
    (by decide)

/-! ### Confidence stays in [0,1] through every rule -/

theorem ruleShortText_conf_bounds (wc : ℕ) (st : Refined)
    (h0 : 0 ≤ st.confidence) (h1 : st.confidence ≤ 1) :
    0 ≤ (ruleShortText wc st).confidence ∧ (ruleShortText wc st).confidence ≤ 1 := by
  unfold ruleShortText
  split_ifs
  · exact ⟨le_trans (by norm_num) (le_max_right _ _), max_le h1 (by norm_num)⟩
  · exact ⟨h0, h1⟩

theorem ruleExplicitFactType_conf_bounds (ctx : ClassifyContext) (st : Refined)
    (h0 : 0 ≤ st.confidence) (h1 : st.confidence ≤ 1) :
    0 ≤ (ruleExplicitFactType ctx st).confidence ∧
    (ruleExplicitFactType ctx st).confidence ≤ 1 := by
  unfold ruleExplicitFactType
  split_ifs
  · exact ⟨by norm_num, by norm_num⟩
  · exact ⟨h0, h1⟩

theorem ruleConversationContext_conf_bounds (ctx : ClassifyContext) (st : Refined)
    (h0 : 0 ≤ st.confidence) (h1 : st.confidence ≤ 1) :
    0 ≤ (ruleConversationContext ctx st).confidence ∧
    (ruleConversationContext ctx st).confidence ≤ 1 := by
  unfold ruleConversationContext
  split_ifs
  · exact ⟨le_min (by linarith) (by norm_num), min_le_right _ _⟩
  · exact ⟨by norm_num, by norm_num⟩
  · exact ⟨h0, h1⟩
  · exact ⟨h0, h1⟩

theorem ruleHighEmotion_conf_bounds (em : ℕ) (st : Refined)
    (h0 : 0 ≤ st.confidence) (h1 : st.confidence ≤ 1) :
    0 ≤ (ruleHighEmotion em st).confidence ∧ (ruleHighEmotion em st).confidence ≤ 1 := by
  unfold ruleHighEmotion
  split_ifs
  · exact ⟨by norm_num, by norm_num⟩
  · exact ⟨h0, h1⟩
  · exact ⟨h0, h1⟩

theorem ruleProfileInformation_conf_bounds (p : ℕ) (st : Refined)
    (h0 : 0 ≤ st.confidence) (h1 : st.confidence ≤ 1) :
    0 ≤ (ruleProfileInformation p st).confidence ∧
    (ruleProfileInformation p st).confidence ≤ 1 := by
  unfold ruleProfileInformation
  split_ifs
  · exact ⟨le_min (by linarith) (by norm_num), min_le_right _ _⟩
  · exact ⟨h0, h1⟩

/-- Claim C8 (confirmed): for every feature vector, context and text shape, the
full pipeline (raw classifier + all five business rules) yields a confidence in
[0,1] and a predicted category that is Episodic or Semantic. -/
theorem c8_pipeline_invariant (fv : FeatureVector) (ctx : ClassifyContext) (tf : TextFlags) :
    0 ≤ (classify_memory fv ctx tf).confidence ∧
    (classify_memory fv ctx tf).confidence ≤ 1 ∧
    ((classify_memory fv ctx tf).type = MemoryType.episodic ∨
      (classify_memory fv ctx tf).type = MemoryType.semantic) := by
  have hb0 := cwc_confidence_nonneg fv ctx
  have hb1 := cwc_confidence_le_one fv ctx
  unfold classify_memory apply_business_rules
  obtain ⟨a1, b1⟩ := ruleShortText_conf_bounds tf.wordCount
    { type := (classify_with_confidence fv ctx).predictedType,
      confidence := (classify_with_confidence fv ctx).confidence,
      rulesApplied := [] } hb0 hb1
  obtain ⟨a2, b2⟩ := ruleExplicitFactType_conf_bounds ctx _ a1 b1
  obtain ⟨a3, b3⟩ := ruleConversationContext_conf_bounds ctx _ a2 b2
  obtain ⟨a4, b4⟩ := ruleHighEmotion_conf_bounds
    (classify_with_confidence fv ctx).features.emotional _ a3 b3
  obtain ⟨a5, b5⟩ := ruleProfileInformation_conf_bounds
    (classify_with_confidence fv ctx).features.profile _ a4 b4
  exact ⟨a5, b5, memoryType_cases _⟩

/-! ### Multi-collection merge (claim C6) -/

theorem length_merged_hits (searchMemory : MemoryType → List Hit)
    (weights : Option (MemoryType → Option ℚ)) (cs : List MemoryType) (K : ℕ)
    (h : ∀ c ∈ cs, (searchMemory c).length = K) :
    (cs.flatMap fun c => weighHits weights c (searchMemory c)).length = cs.length * K := by
  induction cs with
  | nil => simp
  | cons c cs ih =>
      rw [List.flatMap_cons, List.length_append,
        ih (fun d hd => h d (List.mem_cons_of_mem c hd))]
      have hw : (weighHits weights c (searchMemory c)).length = K := by
        rw [weighHits, List.length_map, h c (List.mem_cons_self c cs)]
      rw [hw, List.length_cons]
      ring

/-- Claim C6 (confirmed): when each of the `N` requested collections returns
`K` hits, `multi_collection_search` returns exactly `min (N·K) limit` hits,
sorted by non-increasing adjusted score; every returned hit is one of the
per-collection hits with its score multiplied by its collection's weight
(`getWeight` returns 1 whenever no weight map, or no entry for the category, is
supplied); the sort is stable (elements of any fixed adjusted score keep their
concatenation order, which is the per-collection order); and an empty
collections list yields an empty result. -/
theorem c6_merge_correctness (searchMemory : MemoryType → List Hit)
    (cs : List MemoryType) (limit K : ℕ) (weights : Option (MemoryType → Option ℚ))
    (h : ∀ c ∈ cs, (searchMemory c).length = K) :
    (multi_collection_search searchMemory cs limit weights).length
      = min (cs.length * K) limit ∧
    List.Sorted (fun a b => b.score ≤ a.score)
      (multi_collection_search searchMemory cs limit weights) ∧
    (∀ p ∈ multi_collection_search searchMemory cs limit weights,
      ∃ c ∈ cs, ∃ hit ∈ searchMemory c,
        p = ⟨hit.score * getWeight weights c, hit.pid, c⟩) ∧
    (∀ s : ℚ, (sortDescBy RankedHit.score
          (cs.flatMap fun c => weighHits weights c (searchMemory c))).filter
            (fun p => p.score = s)
        = (cs.flatMap fun c => weighHits weights c (searchMemory c)).filter
            (fun p => p.score = s)) ∧
    (∀ (f : MemoryType → List Hit) (l : ℕ) (w : Option (MemoryType → Option ℚ)),
      multi_collection_search f [] l w = []) ∧
    (∀ c, getWeight none c = 1) := by
  refine ⟨?_, ?_, ?_, ?_, ?_, fun c => rfl⟩
  · show ((sortDescBy RankedHit.score _).take limit).length = _
    rw [List.length_take, length_sortDescBy,
      length_merged_hits searchMemory weights cs K h, Nat.min_comm]
  · exact (sorted_sortDescBy RankedHit.score _).sublist (List.take_sublist _ _)
  · intro p hp
    have hp' : p ∈ sortDescBy RankedHit.score
        (cs.flatMap fun c => weighHits weights c (searchMemory c)) :=
      List.take_subset _ _ hp
    rw [mem_sortDescBy, List.mem_flatMap] at hp'
    obtain ⟨c, hc, hpc⟩ := hp'
    obtain ⟨hit, hhit, rfl⟩ := List.mem_map.mp hpc
    exact ⟨c, hc, hit, hhit, rfl⟩
  · intro s
    exact filter_sortDescBy RankedHit.score _ s
  · intro f l w
    simp [multi_collection_search, sortDescBy]

/-- Witness for `c6_merge_correctness`: two collections of two hits each,
limit 3, no weight map. -/
theorem c6_merge_correctness_witness :
    (multi_collection_search
        (fun c => match c with
          | MemoryType.episodic => [⟨9/10, 1⟩, ⟨1/2, 2⟩]
          | MemoryType.semantic => [⟨4/5, 3⟩, ⟨7/10, 4⟩])
        [MemoryType.episodic, MemoryType.semantic] 3 none).length = min (2 * 2) 3 :=
  (c6_merge_correctness
      (fun c => match c with
        | MemoryType.episodic => [⟨9/10, 1⟩, ⟨1/2, 2⟩]
        | MemoryType.semantic => [⟨4/5, 3⟩, ⟨7/10, 4⟩])
      [MemoryType.episodic, MemoryType.semantic] 3 2 none (by decide)).1

/-! ### Partial failure in multi-collection search (claim C2) -/

theorem gatherWeighted_error_of_mem (searchMemory : MemoryType → Except String (List Hit))
    (weights : Option (MemoryType → Option ℚ)) (cs : List MemoryType) (c : MemoryType)
    (e : String) (hc : c ∈ cs) (he : searchMemory c = Except.error e) :
    ∃ e', gatherWeighted searchMemory weights cs = Except.error e' := by
  induction cs with
  | nil => cases hc
  | cons d ds ih =>
      rcases List.mem_cons.mp hc with rfl | hc'
      · exact ⟨e, by simp only [gatherWeighted, he]; rfl⟩
      · cases hd : searchMemory d with
        | error e'' => exact ⟨e'', by simp only [gatherWeighted, hd]; rfl⟩
        | ok hits =>
            obtain ⟨e', he'⟩ := ih hc'
            exact ⟨e', by simp only [gatherWeighted, hd, he']; rfl⟩

/-- Claim C2, counterexample: a two-collection search in which the second
collection's underlying query fails returns the storage error itself — the
healthy first collection's hit is lost and no partial result (let alone
failure metadata) reaches the caller. -/
theorem c2_partial_failure_counterexample :
    multi_collection_search_fallible
        (fun c => match c with
          | MemoryType.episodic => Except.ok [⟨1/2, 1⟩]
          | MemoryType.semantic => Except.error "storage query failed")
        [MemoryType.episodic, MemoryType.semantic] 10 none
      = Except.error "storage query failed" := rfl

/-- Claim C2 (amended): `multi_collection_search` wraps no per-collection
`try/except`, so a storage failure in any requested collection propagates and
no hits are returned at all; the catch-and-continue behaviour lives only in
`AdvancedMemoryService.search_by_user`'s fixed all-types loop, where a failing
type is indistinguishable from an empty one — healthy types' hits are returned
but the failed collection's identity is not reported to the caller. -/
theorem c2_amended_failure_handling :
    (∀ (searchMemory : MemoryType → Except String (List Hit))
        (cs : List MemoryType) (limit : ℕ) (weights : Option (MemoryType → Option ℚ))
        (c : MemoryType) (e : String),
      c ∈ cs → searchMemory c = Except.error e →
      ∀ hits, multi_collection_search_fallible searchMemory cs limit weights
        ≠ Except.ok hits) ∧
    (∀ (s₁ s₂ : String → Except String (List UserResult)) (topK : ℕ),
      (∀ t, s₁ t = s₂ t ∨ ((∃ e, s₁ t = Except.error e) ∧ s₂ t = Except.ok [])) →
      search_by_user s₁ topK = search_by_user s₂ topK) := by
  constructor
  · intro searchMemory cs limit weights c e hc he hits
    obtain ⟨e', he'⟩ := gatherWeighted_error_of_mem searchMemory weights cs c e hc he
    have hmv : multi_collection_search_fallible searchMemory cs limit weights
        = Except.error e' := by
      unfold multi_collection_search_fallible
      rw [he']
      rfl
    rw [hmv]
    exact fun hcon => Except.noConfusion hcon
  · intro s₁ s₂ topK h
    have hcollect : ∀ ts : List String, collectHealthy s₁ ts = collectHealthy s₂ ts := by
      intro ts
      induction ts with
      | nil => rfl
      | cons t ts ih =>
          simp only [collectHealthy, ih]
          rcases h t with heq | ⟨⟨e, he⟩, h2⟩
          · rw [heq]
          · rw [he, h2]
    unfold search_by_user
    rw [hcollect]

/-- Witness for `c2_amended_failure_handling`: a failing semantic collection
makes the repository-level search error out, while the service-level all-types
loop returns the same results as if the failing type were empty. -/
theorem c2_amended_failure_handling_witness :
    (∀ hits, multi_collection_search_fallible
        (fun c => match c with
          | MemoryType.episodic => Except.ok [⟨1/2, 1⟩]
          | MemoryType.semantic => Except.error "down")
        [MemoryType.episodic, MemoryType.semantic] 10 none ≠ Except.ok hits) ∧
    search_by_user
        (fun t => if t = "procedural" then Except.error "down" else Except.ok [⟨1, 5⟩]) 3
      = search_by_user
        (fun t => if t = "procedural" then Except.ok [] else Except.ok [⟨1, 5⟩]) 3 :=
  ⟨(c2_amended_failure_handling).1
      (fun c => match c with
        | MemoryType.episodic => Except.ok [⟨1/2, 1⟩]
        | MemoryType.semantic => Except.error "down")
      [MemoryType.episodic, MemoryType.semantic] 10 none MemoryType.semantic "down"
      (by simp) rfl,
    (c2_amended_failure_handling).2
      (fun t => if t = "procedural" then Except.error "down" else Except.ok [⟨1, 5⟩])
      (fun t => if t = "procedural" then Except.ok [] else Except.ok [⟨1, 5⟩]) 3
      (by
        intro t
        by_cases ht : t = "procedural" <;> simp [ht])⟩

/-! ### Time decay (claims C7, C9, C10) -/

theorem calculate_time_weight_zero (t r : ℝ) : calculate_time_weight t r 0 = 1 :=
  if_pos rfl

/-- Claim C7, counterexample: with a negative weight the decay value is
`exp 1 > 1`, outside `(0,1]`; and the claim's symmetry equation
`decay(t, r+Δ, w) = decay(t, r−Δ, w)` fails at `t = 0, r = 1, Δ = 1, w = 1`
(the function is symmetric around the *item* time, i.e. in the sign of
`r − t`, not around an arbitrary reference point). -/
theorem c7_decay_counterexample :
    calculate_time_weight 0 1 (-1) = Real.exp 1 ∧
    1 < Real.exp 1 ∧
    calculate_time_weight 0 2 1 ≠ calculate_time_weight 0 0 1 := by
  refine ⟨?_, ?_, ?_⟩
  · unfold calculate_time_weight
    rw [if_neg (by norm_num)]
    norm_num
  · have := Real.add_one_le_exp 1
    linarith
  · unfold calculate_time_weight
    rw [if_neg (by norm_num), if_neg (by norm_num)]
    have h2 : Real.exp (-|(2 : ℝ) - 0| * 1) < 1 := by
      rw [show (-|(2 : ℝ) - 0| * 1) = -2 by norm_num, ← Real.exp_zero]
      exact Real.exp_lt_exp.mpr (by norm_num)
    have h0 : Real.exp (-|(0 : ℝ) - 0| * 1) = 1 := by
      rw [show (-|(0 : ℝ) - 0| * 1) = 0 by norm_num, Real.exp_zero]
    rw [h0]
    exact ne_of_lt h2

/-- Claim C7 (amended): for every non-negative weight,
`calculate_time_weight` returns 1 when the weight is 0 or the times coincide,
otherwise `exp(-|r − t| · w)`; the value lies in `(0,1]`, is symmetric in past
versus future of the *reference* time (`decay(r+Δ, r, w) = decay(r−Δ, r, w)`),
and is non-increasing in `|r − t|`. -/
theorem c7_amended_decay_props (t r w : ℝ) (hw : 0 ≤ w) :
    (w = 0 → calculate_time_weight t r w = 1) ∧
    (t = r → calculate_time_weight t r w = 1) ∧
    0 < calculate_time_weight t r w ∧
    calculate_time_weight t r w ≤ 1 ∧
    (∀ d : ℝ, calculate_time_weight (r + d) r w = calculate_time_weight (r - d) r w) ∧
    (∀ t' r' : ℝ, |r - t| ≤ |r' - t'| →
      calculate_time_weight t' r' w ≤ calculate_time_weight t r w) ∧
    (w ≠ 0 → calculate_time_weight t r w = Real.exp (-|r - t| * w)) := by
  refine ⟨fun h0 => if_pos h0, ?_, ?_, ?_, ?_, ?_, fun hne => if_neg hne⟩
  · intro hteq
    unfold calculate_time_weight
    split_ifs
    · rfl
    · rw [hteq, sub_self, abs_zero, neg_zero, zero_mul, Real.exp_zero]
  · unfold calculate_time_weight
    split_ifs
    · norm_num
    · exact Real.exp_pos _
  · unfold calculate_time_weight
    split_ifs
    · exact le_refl 1
    · rw [← Real.exp_zero]
      exact Real.exp_le_exp.mpr (by nlinarith [abs_nonneg (r - t)])
  · intro d
    unfold calculate_time_weight
    split_ifs
    · rfl
    · rw [show r - (r + d) = -d by ring, show r - (r - d) = d by ring, abs_neg]
  · intro t' r' habs
    unfold calculate_time_weight
    split_ifs
    · exact le_refl 1
    · exact Real.exp_le_exp.mpr (by nlinarith)
  -- closed above

/-- Witness for `c7_amended_decay_props` at item time 0, reference time 1,
weight 1/2. -/
theorem c7_amended_decay_props_witness :
    0 < calculate_time_weight 0 1 (1/2) ∧ calculate_time_weight 0 1 (1/2) ≤ 1 :=
  ⟨(c7_amended_decay_props 0 1 (1/2) (by norm_num)).2.2.1,
    (c7_amended_decay_props 0 1 (1/2) (by norm_num)).2.2.2.1⟩

/-- Claim C9, counterexample: for a hit whose raw similarity exceeds 1 (the
semantic collection is configured with the unbounded DOT metric), a timestamp
one day in the future does *not* make the adjusted score exceed the raw score:
at raw score 100 the adjusted score is below 100. -/
theorem c9_future_hit_counterexample :
    time_weighted_adjusted_score 100 (some (some 1)) 0 (3/10) 30 < 100 := by
  simp only [time_weighted_adjusted_score]
  have hfl : ⌊(0 : ℝ) - 1⌋ = -1 := by norm_num
  rw [hfl]
  have hexp : Real.exp (-((-1 : ℤ) : ℝ) / 30) < 3 := by
    have h1 : (-((-1 : ℤ) : ℝ) / 30) ≤ 1 := by norm_num
    have h2 : Real.exp (-((-1 : ℤ) : ℝ) / 30) ≤ Real.exp 1 := Real.exp_le_exp.mpr h1
    have h3 : Real.exp 1 < 2.7182818286 := Real.exp_one_lt_d9
    linarith
  linarith

/-- Claim C9 (amended): in `search_memory_with_time_weight` the day difference
is `(current_time − memory_time).days` with no absolute value, so for a hit
whose parsed timestamp is at least one full day in the future the decay factor
`exp(-days_ago/decay_days)` exceeds 1, and — provided the hit's raw similarity
is at most 1 (the cosine range) and the time weight is positive — the adjusted
score exceeds the raw score; a hit with a missing or unparseable timestamp
keeps its raw score unchanged. -/
theorem c9_amended_future_decay (score mem cur tw dd : ℝ)
    (hfut : cur + 1 ≤ mem) (hs : score ≤ 1) (htw : 0 < tw) (hdd : 0 < dd) :
    1 < Real.exp (-((⌊cur - mem⌋ : ℤ) : ℝ) / dd) ∧
    score < time_weighted_adjusted_score score (some (some mem)) cur tw dd ∧
    (∀ s' : ℝ, time_weighted_adjusted_score s' (some none) cur tw dd = s' ∧
      time_weighted_adjusted_score s' none cur tw dd = s') := by
  have hfloor : (⌊cur - mem⌋ : ℤ) ≤ -1 := by
    have hle : cur - mem ≤ ((-1 : ℤ) : ℝ) := by push_cast; linarith
    have := Int.floor_mono hle
    rwa [Int.floor_intCast] at this
  have hcast : ((⌊cur - mem⌋ : ℤ) : ℝ) ≤ -1 := by exact_mod_cast hfloor
  have hpos : 0 < -((⌊cur - mem⌋ : ℤ) : ℝ) / dd := div_pos (by linarith) hdd
  have hexp : 1 < Real.exp (-((⌊cur - mem⌋ : ℤ) : ℝ) / dd) := by
    rw [← Real.exp_zero]
    exact Real.exp_lt_exp.mpr hpos
  refine ⟨hexp, ?_, fun s' => ⟨rfl, rfl⟩⟩
  show score < score * (1 - tw) + Real.exp (-((⌊cur - mem⌋ : ℤ) : ℝ) / dd) * tw
  nlinarith

/-- Witness for `c9_amended_future_decay`: raw score 1/2, memory timestamp one
day after the reference, default parameters 0.3 and 30. -/
theorem c9_amended_future_decay_witness :
    (1/2 : ℝ) < time_weighted_adjusted_score (1/2) (some (some 1)) 0 (3/10) 30 :=
  (c9_amended_future_decay (1/2) 1 0 (3/10) 30 (by norm_num) (by norm_num)
    (by norm_num) (by norm_num)).2.1

/-- Claim C10 (confirmed): in the v1 memory service, a hit whose payload has no
timestamp key gets time weight exactly 0.5 (final score = similarity/2) for
every requested time weight, and with request time weight 0 every timestamped
hit gets time weight exactly 1.0 (final score = similarity). -/
theorem c10_missing_timestamp_half_weight (sim ref tw t : ℝ) :
    (make_search_result sim none ref tw).timeWeight = 1/2 ∧
    (make_search_result sim none ref tw).finalScore = sim * (1/2) ∧
    (make_search_result sim (some t) ref 0).timeWeight = 1 ∧
    (make_search_result sim (some t) ref 0).finalScore = sim := by
  refine ⟨rfl, rfl, ?_, ?_⟩
  · show calculate_time_weight t ref 0 = 1
    exact calculate_time_weight_zero t ref
  · show sim * calculate_time_weight t ref 0 = sim
    rw [calculate_time_weight_zero, mul_one]

end VGMem
